import Mathlib

/-!
Verification development for the light-placement engine and camera framer of
the Blenderbox repository.

The embedded functions are `optimize_light_positions` and its inner helper
`calculate_total_distance` (from `inspect_glb.py`) and
`calculate_camera_distance` (from `utils.py`).  Machine floats are modelled by
real numbers; the process-global random source is modelled by explicit streams
of draws: one pair of spherical angles per light for initialization, and one
record per annealing iteration holding the chosen light index, the two fresh
angles, and the uniform coin consumed by the Metropolis acceptance test.
-/

/-- A 3-component vector, the value of a `np.array([x, y, z])`. -/
structure Vec3 where
  x : ℝ
  y : ℝ
  z : ℝ

instance : Inhabited Vec3 := ⟨⟨0, 0, 0⟩⟩

/-- Componentwise subtraction of 3-vectors (numpy array subtraction). -/
def sub3 (a b : Vec3) : Vec3 := ⟨a.x - b.x, a.y - b.y, a.z - b.z⟩

/-- Euclidean norm of a 3-vector (`np.linalg.norm`). -/
noncomputable def norm3 (v : Vec3) : ℝ := Real.sqrt (v.x ^ 2 + v.y ^ 2 + v.z ^ 2)

/-- Euclidean distance between two 3-vectors. -/
noncomputable def dist3 (a b : Vec3) : ℝ := norm3 (sub3 a b)

/-- The spherical-coordinate construction used both for the initial positions
and for every candidate position in `optimize_light_positions`:
`x = d*sin(theta)*cos(phi)`, `y = d*sin(theta)*sin(phi)`, `z = d*cos(theta)`. -/
noncomputable def sphPoint (distance phi theta : ℝ) : Vec3 :=
  ⟨distance * Real.sin theta * Real.cos phi,
   distance * Real.sin theta * Real.sin phi,
   distance * Real.cos theta⟩

/-- The inner helper `calculate_total_distance` of `optimize_light_positions`:
`for i in range(len(positions)): for j in range(i+1, len(positions)):
total += norm(positions[i] - positions[j])`. -/
noncomputable def calculate_total_distance (positions : List Vec3) : ℝ :=
  ∑ i ∈ Finset.range positions.length,
    ∑ j ∈ Finset.Ico (i + 1) positions.length,
      dist3 (positions.getD i default) (positions.getD j default)

/-- The spec's objective, stated the way the spec words it: the sum over all
unordered pairs `(i, j)` with `i < j` of the Euclidean distance between
position `i` and position `j`. -/
noncomputable def pairwiseDistanceSum (positions : List Vec3) : ℝ :=
  ∑ p ∈ (Finset.range positions.length ×ˢ Finset.range positions.length).filter
      (fun p => p.1 < p.2),
    dist3 (positions.getD p.1 default) (positions.getD p.2 default)

/-- Resolution of the `distances` argument of `optimize_light_positions`:
`None` becomes `[1.0] * num_lights`; a scalar is broadcast; a list shorter than
`num_lights` is padded with its last element (`distances[-1]`, which raises
`IndexError` on an empty list); otherwise the list is used as given. -/
def resolveDistances (num_lights : ℕ) (distances : Option (ℝ ⊕ List ℝ)) :
    Except String (List ℝ) :=
  match distances with
  | none => .ok (List.replicate num_lights 1.0)
  | some (.inl r) => .ok (List.replicate num_lights r)
  | some (.inr l) =>
      if l.length < num_lights then
        match l.getLast? with
        | none => .error "IndexError"
        | some last => .ok (l ++ List.replicate (num_lights - l.length) last)
      else .ok l

/-- The random draws consumed by one annealing iteration: the light index from
`random.randint(0, num_lights - 1)`, the two fresh spherical angles, and the
uniform coin from `random.random()` used by the acceptance test. -/
structure IterRand where
  lightIdx : ℕ
  phi : ℝ
  theta : ℝ
  coin : ℝ

/-- The mutable state of the annealing search. -/
structure SearchState where
  positions : List Vec3
  currentScore : ℝ
  bestPositions : List Vec3
  bestScore : ℝ
  temperature : ℝ

/-- The cooling rate of the annealing loop. -/
noncomputable def cooling_rate : ℝ := 0.995

/-- One iteration of the annealing loop: resample the chosen light on its own
sphere, accept if the new total distance is strictly larger, otherwise accept
exactly when the uniform coin is below `exp((new - current) / temperature)`,
reverting that light on rejection; snapshot the best configuration when the
current score strictly exceeds the best score; multiply the temperature by the
cooling rate. -/
noncomputable def annealStep (radii : List ℝ) (r : IterRand) (s : SearchState) :
    SearchState :=
  let distance := radii.getD r.lightIdx 0
  let candidate := sphPoint distance r.phi r.theta
  let old_position := s.positions.getD r.lightIdx default
  let positions1 := s.positions.set r.lightIdx candidate
  let new_distance := calculate_total_distance positions1
  let positions2 :=
    if s.currentScore < new_distance then positions1
    else if r.coin < Real.exp ((new_distance - s.currentScore) / s.temperature) then
      positions1
    else positions1.set r.lightIdx old_position
  let current2 :=
    if s.currentScore < new_distance then new_distance
    else if r.coin < Real.exp ((new_distance - s.currentScore) / s.temperature) then
      new_distance
    else s.currentScore
  { positions := positions2
    currentScore := current2
    bestPositions := if s.bestScore < current2 then positions2 else s.bestPositions
    bestScore := if s.bestScore < current2 then current2 else s.bestScore
    temperature := s.temperature * cooling_rate }

/-- The initial random positions: one spherical sample per light at that
light's radius. -/
noncomputable def initPositions (radii : List ℝ) (num_lights : ℕ)
    (initR : ℕ → ℝ × ℝ) : List Vec3 :=
  (List.range num_lights).map fun i => sphPoint (radii.getD i 0) (initR i).1 (initR i).2

/-- The search state at the start of the annealing loop: current and best are
both the initial configuration and its score; temperature is `1.0`. -/
noncomputable def initState (radii : List ℝ) (num_lights : ℕ)
    (initR : ℕ → ℝ × ℝ) : SearchState :=
  { positions := initPositions radii num_lights initR
    currentScore := calculate_total_distance (initPositions radii num_lights initR)
    bestPositions := initPositions radii num_lights initR
    bestScore := calculate_total_distance (initPositions radii num_lights initR)
    temperature := 1.0 }

/-- The search state after `k` iterations of the annealing loop, iteration `k`
consuming the draw record `iterR k`. -/
noncomputable def stateAt (radii : List ℝ) (iterR : ℕ → IterRand)
    (s0 : SearchState) : ℕ → SearchState
  | 0 => s0
  | k + 1 => annealStep radii (iterR k) (stateAt radii iterR s0 k)

/-- `optimize_light_positions` from `inspect_glb.py`: return `[]` for
`num_lights <= 0`; resolve the `distances` argument; run `max_iterations`
annealing iterations from a random initial configuration; return the best
positions observed. -/
noncomputable def optimize_light_positions (num_lights : ℤ)
    (distances : Option (ℝ ⊕ List ℝ)) (max_iterations : ℕ)
    (initR : ℕ → ℝ × ℝ) (iterR : ℕ → IterRand) : Except String (List Vec3) :=
  if num_lights ≤ 0 then .ok []
  else
    match resolveDistances num_lights.toNat distances with
    | .error e => .error e
    | .ok radii =>
        .ok (stateAt radii iterR (initState radii num_lights.toNat initR)
          max_iterations).bestPositions

/-- `calculate_camera_distance` from `utils.py`: clamp the fill percentage to
`[0.1, 1.0]`, compute `base_distance = object_scale / tan(fov / 2)`, and return
`base_distance * (1.0 / percentage)`. -/
noncomputable def calculate_camera_distance (object_scale fov
    screen_fill_percentage : ℝ) : ℝ :=
  let p := max 0.1 (min 1.0 screen_fill_percentage)
  let distance_multiplier := 1.0 / p
  let base_distance := object_scale / Real.tan (fov / 2)
  base_distance * distance_multiplier

/-- The effective per-light radii actually consulted by the search: the first
`num_lights` entries of the resolved distance list. -/
def effectiveRadii (num_lights : ℕ) (distances : Option (ℝ ⊕ List ℝ)) :
    Except String (List ℝ) :=
  (resolveDistances num_lights distances).map (List.take num_lights)

lemma norm3_sphPoint (r phi theta : ℝ) : norm3 (sphPoint r phi theta) = |r| := by
  have h : (r * Real.sin theta * Real.cos phi) ^ 2 +
      (r * Real.sin theta * Real.sin phi) ^ 2 + (r * Real.cos theta) ^ 2 = r ^ 2 := by
    have h1 := Real.sin_sq_add_cos_sq phi
    have h2 := Real.sin_sq_add_cos_sq theta
    have e1 : (r * Real.sin theta * Real.cos phi) ^ 2 +
        (r * Real.sin theta * Real.sin phi) ^ 2 + (r * Real.cos theta) ^ 2 =
        r ^ 2 * (Real.sin theta ^ 2 * (Real.sin phi ^ 2 + Real.cos phi ^ 2) +
          Real.cos theta ^ 2) := by ring
    rw [e1, h1, mul_one, h2, mul_one]
  rw [norm3, sphPoint]
  simp only
  rw [h]
  exact Real.sqrt_sq_eq_abs r

lemma getD_set_eq {α : Type} [Inhabited α] (l : List α) (i : ℕ) (a : α)
    (h : i < l.length) : (l.set i a).getD i default = a := by
  rw [List.getD_eq_getElem _ _ (by simpa using h)]
  simp [List.getElem_set, h]

lemma getD_set_ne {α : Type} [Inhabited α] (l : List α) (i j : ℕ) (a : α)
    (h : i ≠ j) : (l.set i a).getD j default = l.getD j default := by
  induction l generalizing i j with
  | nil => simp
  | cons x xs ih =>
    cases i with
    | zero =>
      cases j with
      | zero => exact absurd rfl h
      | succ j' => simp [List.getD]
    | succ i' =>
      cases j with
      | zero => simp [List.getD]
      | succ j' =>
        simp only [List.set_cons_succ, List.getD_cons_succ]
        exact ih i' j' (fun hc => h (by rw [hc]))

lemma set_getD_self {α : Type} [Inhabited α] (l : List α) (i : ℕ) :
    l.set i (l.getD i default) = l := by
  induction l generalizing i with
  | nil => simp
  | cons x xs ih =>
    cases i with
    | zero => simp [List.getD]
    | succ j => simp only [List.getD_cons_succ, List.set_cons_succ, ih]

lemma set_set_cancel {α : Type} [Inhabited α] (l : List α) (i : ℕ) (a : α) :
    (l.set i a).set i (l.getD i default) = l := by
  rw [List.set_set, set_getD_self]

lemma getD_take {α : Type} [Inhabited α] (l : List α) (n i : ℕ) (h : i < n) :
    (l.take n).getD i default = l.getD i default := by
  induction l generalizing n i with
  | nil => simp
  | cons x xs ih =>
    cases n with
    | zero => exact absurd h (by omega)
    | succ m =>
      cases i with
      | zero => simp [List.getD]
      | succ j => simpa [List.getD] using ih m j (by omega)

lemma annealStep_positions_length (radii : List ℝ) (r : IterRand)
    (s : SearchState) :
    (annealStep radii r s).positions.length = s.positions.length := by
  rw [annealStep]
  split_ifs <;> simp

lemma annealStep_reject_positions (radii : List ℝ) (r : IterRand)
    (s : SearchState)
    (hlt : ¬ s.currentScore <
      calculate_total_distance
        (s.positions.set r.lightIdx
          (sphPoint (radii.getD r.lightIdx 0) r.phi r.theta)))
    (hcoin : ¬ r.coin < Real.exp
      ((calculate_total_distance
          (s.positions.set r.lightIdx
            (sphPoint (radii.getD r.lightIdx 0) r.phi r.theta)) -
        s.currentScore) / s.temperature)) :
    (annealStep radii r s).positions = s.positions ∧
      (annealStep radii r s).currentScore = s.currentScore := by
  rw [annealStep]
  simp only [if_neg hlt, if_neg hcoin]
  exact ⟨set_set_cancel _ _ _, trivial⟩

lemma annealStep_accept_positions (radii : List ℝ) (r : IterRand)
    (s : SearchState)
    (hacc : s.currentScore <
        calculate_total_distance
          (s.positions.set r.lightIdx
            (sphPoint (radii.getD r.lightIdx 0) r.phi r.theta)) ∨
      r.coin < Real.exp
        ((calculate_total_distance
            (s.positions.set r.lightIdx
              (sphPoint (radii.getD r.lightIdx 0) r.phi r.theta)) -
          s.currentScore) / s.temperature)) :
    (annealStep radii r s).positions =
        s.positions.set r.lightIdx
          (sphPoint (radii.getD r.lightIdx 0) r.phi r.theta) ∧
      (annealStep radii r s).currentScore =
        calculate_total_distance
          (s.positions.set r.lightIdx
            (sphPoint (radii.getD r.lightIdx 0) r.phi r.theta)) := by
  rw [annealStep]
  by_cases hlt : s.currentScore <
      calculate_total_distance
        (s.positions.set r.lightIdx
          (sphPoint (radii.getD r.lightIdx 0) r.phi r.theta))
  · simp only [if_pos hlt]
    exact ⟨trivial, trivial⟩
  · have hcoin := hacc.resolve_left hlt
    simp only [if_neg hlt, if_pos hcoin]
    exact ⟨trivial, trivial⟩

lemma annealStep_score_inv (radii : List ℝ) (r : IterRand) (s : SearchState)
    (hc : s.currentScore = calculate_total_distance s.positions)
    (hb : s.bestScore = calculate_total_distance s.bestPositions)
    (hle : s.currentScore ≤ s.bestScore) :
    (annealStep radii r s).currentScore =
        calculate_total_distance (annealStep radii r s).positions ∧
      (annealStep radii r s).bestScore =
        calculate_total_distance (annealStep radii r s).bestPositions ∧
      (annealStep radii r s).currentScore ≤ (annealStep radii r s).bestScore := by
  simp only [annealStep]
  split_ifs with h1 h3 h2 h4 h5
  · exact ⟨rfl, rfl, le_refl _⟩
  · exact ⟨rfl, hb, le_of_not_lt h3⟩
  · exact ⟨rfl, rfl, le_refl _⟩
  · exact ⟨rfl, hb, le_of_not_lt h4⟩
  · refine ⟨?_, ?_, le_refl _⟩
    · rw [set_set_cancel]; exact hc
    · rw [set_set_cancel]; exact hc
  · refine ⟨?_, hb, hle⟩
    rw [set_set_cancel]; exact hc

lemma annealStep_best_update (radii : List ℝ) (r : IterRand) (s : SearchState) :
    (s.bestScore < (annealStep radii r s).currentScore →
        (annealStep radii r s).bestPositions = (annealStep radii r s).positions ∧
          (annealStep radii r s).bestScore = (annealStep radii r s).currentScore) ∧
      (¬ s.bestScore < (annealStep radii r s).currentScore →
        (annealStep radii r s).bestPositions = s.bestPositions ∧
          (annealStep radii r s).bestScore = s.bestScore) := by
  simp only [annealStep]
  constructor
  · intro h
    rw [if_pos h, if_pos h]
    exact ⟨rfl, rfl⟩
  · intro h
    rw [if_neg h, if_neg h]
    exact ⟨rfl, rfl⟩

lemma annealStep_bestScore_mono (radii : List ℝ) (r : IterRand)
    (s : SearchState) : s.bestScore ≤ (annealStep radii r s).bestScore := by
  simp only [annealStep]
  split_ifs with h1 h3 h2 h4 h5
  · exact le_of_lt h3
  · exact le_refl _
  · exact le_of_lt h4
  · exact le_refl _
  · exact le_of_lt h5
  · exact le_refl _

lemma annealStep_bestPositions_length (radii : List ℝ) (r : IterRand)
    (s : SearchState) :
    (annealStep radii r s).bestPositions.length = s.positions.length ∨
      (annealStep radii r s).bestPositions = s.bestPositions := by
  simp only [annealStep]
  split_ifs <;> simp

lemma stateAt_score_inv (radii : List ℝ) (iterR : ℕ → IterRand)
    (s0 : SearchState)
    (hc : s0.currentScore = calculate_total_distance s0.positions)
    (hb : s0.bestScore = calculate_total_distance s0.bestPositions)
    (hle : s0.currentScore ≤ s0.bestScore) (k : ℕ) :
    (stateAt radii iterR s0 k).currentScore =
        calculate_total_distance (stateAt radii iterR s0 k).positions ∧
      (stateAt radii iterR s0 k).bestScore =
        calculate_total_distance (stateAt radii iterR s0 k).bestPositions ∧
      (stateAt radii iterR s0 k).currentScore ≤
        (stateAt radii iterR s0 k).bestScore := by
  induction k with
  | zero => exact ⟨hc, hb, hle⟩
  | succ m ih =>
    exact annealStep_score_inv radii (iterR m) (stateAt radii iterR s0 m)
      ih.1 ih.2.1 ih.2.2

lemma stateAt_bestScore_mono (radii : List ℝ) (iterR : ℕ → IterRand)
    (s0 : SearchState) (j k : ℕ) (h : j ≤ k) :
    (stateAt radii iterR s0 j).bestScore ≤
      (stateAt radii iterR s0 k).bestScore := by
  induction k with
  | zero =>
    have : j = 0 := Nat.le_zero.mp h
    rw [this]
  | succ m ih =>
    rcases Nat.lt_or_ge j (m + 1) with hj | hj
    · exact le_trans (ih (Nat.lt_succ_iff.mp hj))
        (annealStep_bestScore_mono radii (iterR m) (stateAt radii iterR s0 m))
    · have : j = m + 1 := le_antisymm h hj
      rw [this]

lemma stateAt_positions_length (radii : List ℝ) (iterR : ℕ → IterRand)
    (s0 : SearchState) (k : ℕ) :
    (stateAt radii iterR s0 k).positions.length = s0.positions.length := by
  induction k with
  | zero => rfl
  | succ m ih =>
    rw [stateAt, annealStep_positions_length, ih]

lemma stateAt_temperature (radii : List ℝ) (iterR : ℕ → IterRand)
    (s0 : SearchState) (k : ℕ) :
    (stateAt radii iterR s0 k).temperature =
      s0.temperature * cooling_rate ^ k := by
  induction k with
  | zero => simp [stateAt]
  | succ m ih =>
    have hstep : (stateAt radii iterR s0 (m + 1)).temperature =
        (stateAt radii iterR s0 m).temperature * cooling_rate := rfl
    rw [hstep, ih, pow_succ, mul_assoc]

/-- The sphere invariant for a configuration: the list has one entry per light
and entry `i` has norm equal to light `i`'s radius. -/
def OnSphereList (radii : List ℝ) (n : ℕ) (ps : List Vec3) : Prop :=
  ps.length = n ∧ ∀ i, i < n → norm3 (ps.getD i default) = radii.getD i 0

lemma onSphereList_set (radii : List ℝ) (n : ℕ) (ps : List Vec3)
    (h : OnSphereList radii n ps) (idx : ℕ) (hidx : idx < n)
    (hpos : 0 ≤ radii.getD idx 0) (phi theta : ℝ) :
    OnSphereList radii n
      (ps.set idx (sphPoint (radii.getD idx 0) phi theta)) := by
  refine ⟨by rw [List.length_set]; exact h.1, fun i hi => ?_⟩
  by_cases hii : idx = i
  · subst hii
    rw [getD_set_eq _ _ _ (by rw [h.1]; exact hidx), norm3_sphPoint]
    exact abs_of_nonneg hpos
  · rw [getD_set_ne _ _ _ _ hii]
    exact h.2 i hi

lemma annealStep_onSphere (radii : List ℝ) (n : ℕ) (r : IterRand)
    (s : SearchState) (hidx : r.lightIdx < n)
    (hpos : 0 ≤ radii.getD r.lightIdx 0)
    (h1 : OnSphereList radii n s.positions)
    (h2 : OnSphereList radii n s.bestPositions) :
    OnSphereList radii n (annealStep radii r s).positions ∧
      OnSphereList radii n (annealStep radii r s).bestPositions := by
  have hset : OnSphereList radii n
      (s.positions.set r.lightIdx
        (sphPoint (radii.getD r.lightIdx 0) r.phi r.theta)) :=
    onSphereList_set radii n s.positions h1 r.lightIdx hidx hpos r.phi r.theta
  have hpositions : OnSphereList radii n (annealStep radii r s).positions := by
    by_cases hacc : s.currentScore <
        calculate_total_distance
          (s.positions.set r.lightIdx
            (sphPoint (radii.getD r.lightIdx 0) r.phi r.theta)) ∨
      r.coin < Real.exp
        ((calculate_total_distance
            (s.positions.set r.lightIdx
              (sphPoint (radii.getD r.lightIdx 0) r.phi r.theta)) -
          s.currentScore) / s.temperature)
    · rw [(annealStep_accept_positions radii r s hacc).1]
      exact hset
    · push_neg at hacc
      rw [(annealStep_reject_positions radii r s
        (not_lt.mpr hacc.1) (not_lt.mpr hacc.2)).1]
      exact h1
  refine ⟨hpositions, ?_⟩
  by_cases hbest : s.bestScore < (annealStep radii r s).currentScore
  · rw [((annealStep_best_update radii r s).1 hbest).1]
    exact hpositions
  · rw [((annealStep_best_update radii r s).2 hbest).1]
    exact h2

lemma stateAt_onSphere (radii : List ℝ) (n : ℕ) (iterR : ℕ → IterRand)
    (s0 : SearchState) (hidx : ∀ k, (iterR k).lightIdx < n)
    (hpos : ∀ i, i < n → 0 ≤ radii.getD i 0)
    (h1 : OnSphereList radii n s0.positions)
    (h2 : OnSphereList radii n s0.bestPositions) (k : ℕ) :
    OnSphereList radii n (stateAt radii iterR s0 k).positions ∧
      OnSphereList radii n (stateAt radii iterR s0 k).bestPositions := by
  induction k with
  | zero => exact ⟨h1, h2⟩
  | succ m ih =>
    exact annealStep_onSphere radii n (iterR m) (stateAt radii iterR s0 m)
      (hidx m) (hpos _ (hidx m)) ih.1 ih.2

lemma calculate_total_distance_short (ps : List Vec3) (h : ps.length ≤ 1) :
    calculate_total_distance ps = 0 := by
  rcases ps with _ | ⟨a, rest⟩
  · simp [calculate_total_distance]
  · have hr : rest = [] := by
      rcases rest with _ | ⟨b, t⟩
      · rfl
      · simp at h
    subst hr
    simp [calculate_total_distance]

lemma calculate_total_distance_eq_pairwise (ps : List Vec3) :
    calculate_total_distance ps = pairwiseDistanceSum ps := by
  rw [calculate_total_distance, pairwiseDistanceSum, Finset.sum_filter,
    Finset.sum_product]
  refine Finset.sum_congr rfl fun i _ => ?_
  rw [← Finset.sum_filter]
  refine Finset.sum_congr ?_ fun j _ => rfl
  ext j
  simp only [Finset.mem_Ico, Finset.mem_filter, Finset.mem_range]
  omega

lemma getD_take_eq {α : Type} (l : List α) (n i : ℕ) (d : α) (h : i < n) :
    (l.take n).getD i d = l.getD i d := by
  induction l generalizing n i with
  | nil => simp
  | cons x xs ih =>
    cases n with
    | zero => exact absurd h (by omega)
    | succ m =>
      cases i with
      | zero => simp [List.getD]
      | succ j => simpa [List.getD] using ih m j (by omega)

lemma annealStep_radii_congr (radii radii' : List ℝ) (r : IterRand)
    (s : SearchState) (h : radii.getD r.lightIdx 0 = radii'.getD r.lightIdx 0) :
    annealStep radii r s = annealStep radii' r s := by
  simp only [annealStep, h]

lemma initPositions_radii_congr (radii radii' : List ℝ) (n : ℕ)
    (initR : ℕ → ℝ × ℝ) (h : ∀ i, i < n → radii.getD i 0 = radii'.getD i 0) :
    initPositions radii n initR = initPositions radii' n initR := by
  simp only [initPositions]
  refine List.map_congr_left fun i hi => ?_
  rw [h i (List.mem_range.mp hi)]

lemma initState_radii_congr (radii radii' : List ℝ) (n : ℕ)
    (initR : ℕ → ℝ × ℝ) (h : ∀ i, i < n → radii.getD i 0 = radii'.getD i 0) :
    initState radii n initR = initState radii' n initR := by
  simp only [initState, initPositions_radii_congr radii radii' n initR h]

lemma stateAt_radii_congr (radii radii' : List ℝ) (n : ℕ)
    (initR : ℕ → ℝ × ℝ) (iterR : ℕ → IterRand)
    (h : ∀ i, i < n → radii.getD i 0 = radii'.getD i 0)
    (hidx : ∀ k, (iterR k).lightIdx < n) (k : ℕ) :
    stateAt radii iterR (initState radii n initR) k =
      stateAt radii' iterR (initState radii' n initR) k := by
  induction k with
  | zero => exact initState_radii_congr radii radii' n initR h
  | succ m ih =>
    show annealStep radii (iterR m) _ = annealStep radii' (iterR m) _
    rw [ih, annealStep_radii_congr radii radii' (iterR m) _
      (h _ (hidx m))]

lemma initPositions_onSphere (radii : List ℝ) (n : ℕ) (initR : ℕ → ℝ × ℝ)
    (hpos : ∀ i, i < n → 0 ≤ radii.getD i 0) :
    OnSphereList radii n (initPositions radii n initR) := by
  refine ⟨by simp [initPositions], fun i hi => ?_⟩
  have hlen : i < (initPositions radii n initR).length := by simp [initPositions, hi]
  rw [List.getD_eq_getElem _ _ hlen]
  simp only [initPositions, List.getElem_map, List.getElem_range]
  rw [norm3_sphPoint]
  exact abs_of_nonneg (hpos i hi)

lemma stateAt_both_lengths (radii : List ℝ) (iterR : ℕ → IterRand)
    (s0 : SearchState) (h : s0.bestPositions.length = s0.positions.length)
    (k : ℕ) :
    (stateAt radii iterR s0 k).positions.length = s0.positions.length ∧
      (stateAt radii iterR s0 k).bestPositions.length = s0.positions.length := by
  induction k with
  | zero => exact ⟨rfl, h⟩
  | succ m ih =>
    refine ⟨by rw [stateAt, annealStep_positions_length]; exact ih.1, ?_⟩
    rcases annealStep_bestPositions_length radii (iterR m)
        (stateAt radii iterR s0 m) with hl | he
    · rw [stateAt, hl]; exact ih.1
    · rw [stateAt, he]; exact ih.2

lemma stateAt_one_light (radii : List ℝ) (initR : ℕ → ℝ × ℝ)
    (iterR : ℕ → IterRand) (k : ℕ) :
    (stateAt radii iterR (initState radii 1 initR) k).currentScore = 0 ∧
      (stateAt radii iterR (initState radii 1 initR) k).bestScore = 0 := by
  have hinv := stateAt_score_inv radii iterR (initState radii 1 initR)
    rfl rfl (le_refl _) k
  have hlen := stateAt_both_lengths radii iterR (initState radii 1 initR)
    rfl k
  have hp1 : (initState radii 1 initR).positions.length = 1 := by
    simp [initState, initPositions]
  constructor
  · rw [hinv.1, calculate_total_distance_short _ (by rw [hlen.1, hp1])]
  · rw [hinv.2.1, calculate_total_distance_short _ (by rw [hlen.2, hp1])]

/-- The one heap cell of the aliasing model: the caller-owned Python list
passed as the `distances` argument, addressed by a natural number. -/
def Heap : Type := ℕ → List ℝ

/-- Reading `distances[i]` through a reference: a local fresh list is read
directly, the caller's list is read through the heap. -/
noncomputable def readRadius (heap : Heap) (rd : List ℝ ⊕ ℕ) (i : ℕ) : ℝ :=
  match rd with
  | .inl l => l.getD i 0
  | .inr a => (heap a).getD i 0

/-- The list value a radii reference denotes in a heap. -/
def derefRadii (heap : Heap) (rd : List ℝ ⊕ ℕ) : List ℝ :=
  match rd with
  | .inl l => l
  | .inr a => heap a

/-- Heap-threaded version of the `distances` resolution: `None` and scalar
broadcast allocate fresh lists, a too-short caller list is copied and padded
into a fresh list (`list(distances) + [distances[-1]] * ...`), and a long
enough caller list is kept as a reference; the heap is only read. -/
noncomputable def resolveDistancesH (heap : Heap) (num_lights : ℕ)
    (distances : Option (ℝ ⊕ ℕ)) : Heap × Except String (List ℝ ⊕ ℕ) :=
  match distances with
  | none => (heap, .ok (.inl (List.replicate num_lights 1.0)))
  | some (.inl r) => (heap, .ok (.inl (List.replicate num_lights r)))
  | some (.inr a) =>
      if (heap a).length < num_lights then
        match (heap a).getLast? with
        | none => (heap, .error "IndexError")
        | some last =>
            (heap, .ok (.inl (heap a ++
              List.replicate (num_lights - (heap a).length) last)))
      else (heap, .ok (.inr a))

/-- Heap-threaded annealing iteration: the `distances` reference is only read
(`distances[light_idx]`); the in-place update targets only the local
`positions` list, so the heap component is returned unchanged. -/
noncomputable def annealStepH (heap : Heap) (rd : List ℝ ⊕ ℕ) (r : IterRand)
    (s : SearchState) : Heap × SearchState :=
  let distance := readRadius heap rd r.lightIdx
  let candidate := sphPoint distance r.phi r.theta
  let old_position := s.positions.getD r.lightIdx default
  let positions1 := s.positions.set r.lightIdx candidate
  let new_distance := calculate_total_distance positions1
  let positions2 :=
    if s.currentScore < new_distance then positions1
    else if r.coin < Real.exp ((new_distance - s.currentScore) / s.temperature) then
      positions1
    else positions1.set r.lightIdx old_position
  let current2 :=
    if s.currentScore < new_distance then new_distance
    else if r.coin < Real.exp ((new_distance - s.currentScore) / s.temperature) then
      new_distance
    else s.currentScore
  (heap,
   { positions := positions2
     currentScore := current2
     bestPositions := if s.bestScore < current2 then positions2 else s.bestPositions
     bestScore := if s.bestScore < current2 then current2 else s.bestScore
     temperature := s.temperature * cooling_rate })

/-- Heap-threaded initial positions: reads `distances[i]` per light. -/
noncomputable def initPositionsH (heap : Heap) (rd : List ℝ ⊕ ℕ) (n : ℕ)
    (initR : ℕ → ℝ × ℝ) : List Vec3 :=
  (List.range n).map fun i => sphPoint (readRadius heap rd i) (initR i).1 (initR i).2

/-- Heap-threaded annealing loop. -/
noncomputable def stateAtH (heap : Heap) (rd : List ℝ ⊕ ℕ)
    (iterR : ℕ → IterRand) (s0 : SearchState) : ℕ → Heap × SearchState
  | 0 => (heap, s0)
  | k + 1 =>
      annealStepH (stateAtH heap rd iterR s0 k).1 rd (iterR k)
        (stateAtH heap rd iterR s0 k).2

/-- Heap-threaded `optimize_light_positions`: identical statement-by-statement
to the plain embedding, but every access to the caller's `distances` list goes
through the heap, so a mutation of the caller's list anywhere in the source
would show up as a changed heap component. -/
noncomputable def optimize_light_positions_heap (heap : Heap) (num_lights : ℤ)
    (distances : Option (ℝ ⊕ ℕ)) (max_iterations : ℕ) (initR : ℕ → ℝ × ℝ)
    (iterR : ℕ → IterRand) : Heap × Except String (List Vec3) :=
  if num_lights ≤ 0 then (heap, .ok [])
  else
    let res := resolveDistancesH heap num_lights.toNat distances
    match res.2 with
    | .error e => (res.1, .error e)
    | .ok rd =>
        let s0 : SearchState :=
          { positions := initPositionsH res.1 rd num_lights.toNat initR
            currentScore := calculate_total_distance
              (initPositionsH res.1 rd num_lights.toNat initR)
            bestPositions := initPositionsH res.1 rd num_lights.toNat initR
            bestScore := calculate_total_distance
              (initPositionsH res.1 rd num_lights.toNat initR)
            temperature := 1.0 }
        ((stateAtH res.1 rd iterR s0 max_iterations).1,
         .ok (stateAtH res.1 rd iterR s0 max_iterations).2.bestPositions)

/-- The pure `distances` argument a heap-level argument denotes. -/
def pureDistances (heap : Heap) (distances : Option (ℝ ⊕ ℕ)) :
    Option (ℝ ⊕ List ℝ) :=
  distances.map (Sum.map id fun a => heap a)

lemma readRadius_eq (heap : Heap) (rd : List ℝ ⊕ ℕ) (i : ℕ) :
    readRadius heap rd i = (derefRadii heap rd).getD i 0 := by
  cases rd <;> rfl

lemma annealStepH_eq (heap : Heap) (rd : List ℝ ⊕ ℕ) (r : IterRand)
    (s : SearchState) :
    annealStepH heap rd r s = (heap, annealStep (derefRadii heap rd) r s) := by
  cases rd <;> rfl

lemma initPositionsH_eq (heap : Heap) (rd : List ℝ ⊕ ℕ) (n : ℕ)
    (initR : ℕ → ℝ × ℝ) :
    initPositionsH heap rd n initR = initPositions (derefRadii heap rd) n initR := by
  cases rd <;> rfl

lemma stateAtH_eq (heap : Heap) (rd : List ℝ ⊕ ℕ) (iterR : ℕ → IterRand)
    (s0 : SearchState) (k : ℕ) :
    stateAtH heap rd iterR s0 k =
      (heap, stateAt (derefRadii heap rd) iterR s0 k) := by
  induction k with
  | zero => rfl
  | succ m ih =>
    show annealStepH (stateAtH heap rd iterR s0 m).1 rd (iterR m)
        (stateAtH heap rd iterR s0 m).2 = _
    rw [ih]
    exact annealStepH_eq heap rd (iterR m) _

lemma resolveDistancesH_fst (heap : Heap) (n : ℕ)
    (distances : Option (ℝ ⊕ ℕ)) :
    (resolveDistancesH heap n distances).1 = heap := by
  rcases distances with _ | ⟨r | a⟩
  · rfl
  · rfl
  · rw [resolveDistancesH]
    by_cases hl : (heap a).length < n
    · rw [if_pos hl]
      cases hgl : (heap a).getLast? <;> rfl
    · rw [if_neg hl]

lemma resolveDistancesH_snd (heap : Heap) (n : ℕ)
    (distances : Option (ℝ ⊕ ℕ)) :
    (resolveDistancesH heap n distances).2.map (derefRadii heap) =
      resolveDistances n (pureDistances heap distances) := by
  rcases distances with _ | ⟨r | a⟩
  · rfl
  · rfl
  · rw [resolveDistancesH]
    have hpure : pureDistances heap (some (.inr a)) = some (.inr (heap a)) := rfl
    rw [hpure, resolveDistances]
    by_cases hl : (heap a).length < n
    · rw [if_pos hl, if_pos hl]
      cases hgl : (heap a).getLast? <;> simp [hgl, Except.map, derefRadii]
    · rw [if_neg hl, if_neg hl]
      rfl

/-- C6: for every `count <= 0`, `optimize_light_positions` returns an empty
sequence and raises no error, regardless of the `distances` and
`max_iterations` arguments. -/
theorem C6_nonpositive_count_empty (num_lights : ℤ) (h : num_lights ≤ 0)
    (distances : Option (ℝ ⊕ List ℝ)) (max_iterations : ℕ)
    (initR : ℕ → ℝ × ℝ) (iterR : ℕ → IterRand) :
    optimize_light_positions num_lights distances max_iterations initR iterR =
      .ok [] := by
  rw [optimize_light_positions, if_pos h]

/-- Witness for C6 at `count = -1`. -/
theorem C6_nonpositive_count_empty_witness :
    (-1 : ℤ) ≤ 0 ∧
      optimize_light_positions (-1) (some (.inl 2.0)) 5 (fun _ => (0, 0))
        (fun _ => ⟨0, 0, 0, 0⟩) = .ok [] :=
  ⟨by decide,
   C6_nonpositive_count_empty (-1) (by decide) (some (.inl 2.0)) 5
     (fun _ => (0, 0)) (fun _ => ⟨0, 0, 0, 0⟩)⟩

/-- C9: for every positive light count, calling `optimize_light_positions` with
an empty list as `distances` fails (the padding step evaluates `distances[-1]`,
an `IndexError` on an empty list) instead of returning positions or falling
back to the `1.0` default. -/
theorem C9_empty_distances_error (num_lights : ℤ) (h0 : 0 < num_lights)
    (max_iterations : ℕ) (initR : ℕ → ℝ × ℝ) (iterR : ℕ → IterRand) :
    optimize_light_positions num_lights (some (.inr [])) max_iterations initR
      iterR = .error "IndexError" := by
  have hn : 0 < num_lights.toNat := by omega
  rw [optimize_light_positions, if_neg (by omega)]
  have hres : resolveDistances num_lights.toNat (some (.inr ([] : List ℝ))) =
      .error "IndexError" := by
    simp [resolveDistances, hn]
  rw [hres]

/-- Witness for C9 at `count = 1`. -/
theorem C9_empty_distances_error_witness :
    (0 : ℤ) < 1 ∧
      optimize_light_positions 1 (some (.inr [])) 3 (fun _ => (0, 0))
        (fun _ => ⟨0, 0, 0, 0⟩) = .error "IndexError" :=
  ⟨by decide,
   C9_empty_distances_error 1 (by decide) 3 (fun _ => (0, 0))
     (fun _ => ⟨0, 0, 0, 0⟩)⟩

/-- C8: `calculate_camera_distance` clamps the fill fraction to `[0.1, 1.0]`
and returns `(object_scale / tan(fov / 2))` divided by the clamped fraction;
at fill fraction `0.01` it divides by `0.1`, and halving a fraction that stays
inside the clamp range exactly doubles the result. -/
theorem C8_camera_distance (object_scale fov p : ℝ) :
    calculate_camera_distance object_scale fov p =
        object_scale / Real.tan (fov / 2) / max 0.1 (min 1.0 p) ∧
      calculate_camera_distance object_scale fov 0.01 =
        object_scale / Real.tan (fov / 2) / 0.1 ∧
      (0.1 ≤ p / 2 → p ≤ 1.0 →
        calculate_camera_distance object_scale fov (p / 2) =
          2 * calculate_camera_distance object_scale fov p) := by
  have hgen : ∀ q : ℝ, calculate_camera_distance object_scale fov q =
      object_scale / Real.tan (fov / 2) / max 0.1 (min 1.0 q) := by
    intro q
    simp only [calculate_camera_distance]
    rw [show (1.0 : ℝ) = 1 from by norm_num, mul_one_div]
  refine ⟨hgen p, ?_, ?_⟩
  · rw [hgen 0.01]
    have hclamp : max (0.1 : ℝ) (min 1.0 0.01) = 0.1 := by
      rw [min_eq_right (by norm_num), max_eq_left (by norm_num)]
    rw [hclamp]
  · intro h1 h2
    have hmin2 : min (1.0 : ℝ) (p / 2) = p / 2 := min_eq_right (by linarith)
    have hminp : min (1.0 : ℝ) p = p := min_eq_right h2
    rw [hgen (p / 2), hgen p, hmin2, hminp, max_eq_right h1,
      max_eq_right (by linarith), div_div_eq_mul_div, mul_comm, mul_div_assoc]

/-- Witness for C8: halving the fill fraction from `0.5` to `0.25` doubles the
returned camera distance. -/
theorem C8_camera_distance_witness :
    ((0.1 : ℝ) ≤ 0.5 / 2 ∧ (0.5 : ℝ) ≤ 1.0) ∧
      calculate_camera_distance 1 0 (0.5 / 2) =
        2 * calculate_camera_distance 1 0 0.5 :=
  ⟨⟨by norm_num, by norm_num⟩,
   (C8_camera_distance 1 0 0.5).2.2 (by norm_num) (by norm_num)⟩

/-- C5: for `count = N > 0` the effective per-light radii are `N` copies of a
scalar `r`; a shorter list padded by repeating its final element up to length
`N`; the first `N` entries of a list of length at least `N`; and `N` copies of
`1.0` when `distances` is `None`.  The last conjunct shows the search reads the
resolved radii only through their first `N` entries. -/
theorem C5_effective_radii (n : ℕ) (_hn : 0 < n) :
    effectiveRadii n none = .ok (List.replicate n 1.0) ∧
      (∀ r : ℝ, effectiveRadii n (some (.inl r)) = .ok (List.replicate n r)) ∧
      (∀ (l : List ℝ) (lastElem : ℝ), l.getLast? = some lastElem →
        l.length < n →
        effectiveRadii n (some (.inr l)) =
          .ok (l ++ List.replicate (n - l.length) lastElem)) ∧
      (∀ l : List ℝ, n ≤ l.length →
        effectiveRadii n (some (.inr l)) = .ok (l.take n)) ∧
      (∀ (radii radii' : List ℝ) (initR : ℕ → ℝ × ℝ) (iterR : ℕ → IterRand)
        (M : ℕ), radii.take n = radii'.take n →
        (∀ k, (iterR k).lightIdx < n) →
        stateAt radii iterR (initState radii n initR) M =
          stateAt radii' iterR (initState radii' n initR) M) := by
  refine ⟨?_, ?_, ?_, ?_, ?_⟩
  · simp [effectiveRadii, resolveDistances, Except.map, List.take_replicate]
  · intro r
    simp [effectiveRadii, resolveDistances, Except.map, List.take_replicate]
  · intro l lastElem hgl hlen
    have hfull : (l ++ List.replicate (n - l.length) lastElem).length = n := by
      simp
      omega
    simp only [effectiveRadii, resolveDistances, if_pos hlen, hgl, Except.map]
    rw [List.take_of_length_le (le_of_eq hfull)]
  · intro l h
    simp only [effectiveRadii, resolveDistances, if_neg (Nat.not_lt.mpr h),
      Except.map]
  · intro radii radii' initR iterR M heq hidx
    refine stateAt_radii_congr radii radii' n initR iterR (fun i hi => ?_)
      hidx M
    rw [← getD_take_eq radii n i 0 hi, ← getD_take_eq radii' n i 0 hi, heq]

/-- Witness for C5: a single-element list `[2.0]` for `count = 2` is padded by
repeating its final element. -/
theorem C5_effective_radii_witness :
    0 < 2 ∧ ([2.0] : List ℝ).getLast? = some 2.0 ∧
      ([2.0] : List ℝ).length < 2 ∧
      effectiveRadii 2 (some (.inr [2.0])) =
        .ok ([2.0] ++ List.replicate (2 - ([2.0] : List ℝ).length) 2.0) :=
  ⟨by decide, rfl, by decide,
   (C5_effective_radii 2 (by decide)).2.2.1 [2.0] 2.0 rfl (by decide)⟩

/-- C2: the search's score `calculate_total_distance` equals the sum over all
unordered pairs `(i, j)` with `i < j` of the Euclidean distance between
positions `i` and `j`; for a single light every configuration scores `0` and
the recorded best score of any run with `count = 1` equals `0`. -/
theorem C2_total_distance_objective :
    (∀ ps : List Vec3, calculate_total_distance ps = pairwiseDistanceSum ps) ∧
      (∀ ps : List Vec3, ps.length = 1 → calculate_total_distance ps = 0) ∧
      (∀ (radii : List ℝ) (initR : ℕ → ℝ × ℝ) (iterR : ℕ → IterRand) (k : ℕ),
        (stateAt radii iterR (initState radii 1 initR) k).bestScore = 0) := by
  refine ⟨calculate_total_distance_eq_pairwise, ?_, ?_⟩
  · intro ps h
    exact calculate_total_distance_short ps (le_of_eq h)
  · intro radii initR iterR k
    exact (stateAt_one_light radii initR iterR k).2

/-- Witness for C2: a one-element configuration has score `0`. -/
theorem C2_total_distance_objective_witness :
    ([(⟨3, 4, 12⟩ : Vec3)] : List Vec3).length = 1 ∧
      calculate_total_distance [(⟨3, 4, 12⟩ : Vec3)] = 0 :=
  ⟨rfl, C2_total_distance_objective.2.1 [⟨3, 4, 12⟩] rfl⟩

/-- C3: one annealing iteration resamples exactly the chosen light on its own
sphere: a candidate whose total score strictly exceeds the current score is
always accepted, otherwise it is accepted exactly when the uniform coin is
below `exp((new_score - current_score) / temperature)`; on rejection the chosen
light reverts to its pre-candidate value, and in every case all other lights
are unchanged. -/
theorem C3_metropolis_step (radii : List ℝ) (r : IterRand) (s : SearchState) :
    ((s.currentScore < calculate_total_distance (s.positions.set r.lightIdx
          (sphPoint (radii.getD r.lightIdx 0) r.phi r.theta)) ∨
        r.coin < Real.exp ((calculate_total_distance (s.positions.set r.lightIdx
            (sphPoint (radii.getD r.lightIdx 0) r.phi r.theta)) -
          s.currentScore) / s.temperature)) →
      (annealStep radii r s).positions = s.positions.set r.lightIdx
          (sphPoint (radii.getD r.lightIdx 0) r.phi r.theta) ∧
        (annealStep radii r s).currentScore = calculate_total_distance
          (s.positions.set r.lightIdx
            (sphPoint (radii.getD r.lightIdx 0) r.phi r.theta))) ∧
      (¬ (s.currentScore < calculate_total_distance (s.positions.set r.lightIdx
            (sphPoint (radii.getD r.lightIdx 0) r.phi r.theta)) ∨
          r.coin < Real.exp ((calculate_total_distance (s.positions.set
              r.lightIdx (sphPoint (radii.getD r.lightIdx 0) r.phi r.theta)) -
            s.currentScore) / s.temperature)) →
        (annealStep radii r s).positions = s.positions ∧
          (annealStep radii r s).currentScore = s.currentScore) ∧
      (∀ j, j ≠ r.lightIdx →
        (annealStep radii r s).positions.getD j default =
          s.positions.getD j default) := by
  refine ⟨annealStep_accept_positions radii r s, ?_, ?_⟩
  · intro h
    push_neg at h
    exact annealStep_reject_positions radii r s (not_lt.mpr h.1)
      (not_lt.mpr h.2)
  · intro j hj
    by_cases hacc : s.currentScore < calculate_total_distance
        (s.positions.set r.lightIdx
          (sphPoint (radii.getD r.lightIdx 0) r.phi r.theta)) ∨
      r.coin < Real.exp ((calculate_total_distance (s.positions.set r.lightIdx
          (sphPoint (radii.getD r.lightIdx 0) r.phi r.theta)) -
        s.currentScore) / s.temperature)
    · rw [(annealStep_accept_positions radii r s hacc).1]
      exact getD_set_ne _ _ _ _ (Ne.symm hj)
    · push_neg at hacc
      rw [(annealStep_reject_positions radii r s (not_lt.mpr hacc.1)
        (not_lt.mpr hacc.2)).1]

/-- The concrete one-light search state used by the C3 witness. -/
noncomputable def c3State : SearchState :=
  ⟨[⟨0, 0, 0⟩], 0, [⟨0, 0, 0⟩], 0, 1⟩

/-- The concrete draw record used by the C3 witness: its coin `2` exceeds any
acceptance probability, forcing the reject branch. -/
noncomputable def c3Rand : IterRand := ⟨0, 0, 0, 2⟩

/-- Witness for C3: with a coin of `2` the candidate is rejected and the state
is unchanged. -/
theorem C3_metropolis_step_witness :
    (¬ (c3State.currentScore < calculate_total_distance
          (c3State.positions.set c3Rand.lightIdx
            (sphPoint (([1] : List ℝ).getD c3Rand.lightIdx 0) c3Rand.phi
              c3Rand.theta)) ∨
        c3Rand.coin < Real.exp ((calculate_total_distance
            (c3State.positions.set c3Rand.lightIdx
              (sphPoint (([1] : List ℝ).getD c3Rand.lightIdx 0) c3Rand.phi
                c3Rand.theta)) - c3State.currentScore) / c3State.temperature))) ∧
      (annealStep [1] c3Rand c3State).positions = c3State.positions ∧
        (annealStep [1] c3Rand c3State).currentScore = c3State.currentScore := by
  have hcz : calculate_total_distance
      (c3State.positions.set c3Rand.lightIdx
        (sphPoint (([1] : List ℝ).getD c3Rand.lightIdx 0) c3Rand.phi
          c3Rand.theta)) = 0 :=
    calculate_total_distance_short _ (by simp [c3State, c3Rand])
  have hno : ¬ (c3State.currentScore < calculate_total_distance
        (c3State.positions.set c3Rand.lightIdx
          (sphPoint (([1] : List ℝ).getD c3Rand.lightIdx 0) c3Rand.phi
            c3Rand.theta)) ∨
      c3Rand.coin < Real.exp ((calculate_total_distance
          (c3State.positions.set c3Rand.lightIdx
            (sphPoint (([1] : List ℝ).getD c3Rand.lightIdx 0) c3Rand.phi
              c3Rand.theta)) - c3State.currentScore) / c3State.temperature)) := by
    rw [hcz]
    norm_num [c3State, c3Rand, Real.exp_zero]
  exact ⟨hno, (C3_metropolis_step [1] c3Rand c3State).2.1 hno⟩

/-- C4: the returned configuration is the best observed during the search: the
best is initialized to the initial configuration, a snapshot replaces it
exactly when the post-accept/reject current score strictly exceeds the best
score, and the returned configuration's total pairwise-distance score is at
least the initial configuration's score and every current score reached. -/
theorem C4_returns_best_observed (num_lights : ℤ)
    (distances : Option (ℝ ⊕ List ℝ)) (M : ℕ) (initR : ℕ → ℝ × ℝ)
    (iterR : ℕ → IterRand) (radii : List ℝ) (h0 : 0 < num_lights)
    (hres : resolveDistances num_lights.toNat distances = .ok radii) :
    optimize_light_positions num_lights distances M initR iterR =
        .ok ((stateAt radii iterR (initState radii num_lights.toNat initR)
          M).bestPositions) ∧
      ((initState radii num_lights.toNat initR).bestPositions =
          (initState radii num_lights.toNat initR).positions ∧
        (initState radii num_lights.toNat initR).bestScore =
          (initState radii num_lights.toNat initR).currentScore) ∧
      (∀ (r : IterRand) (s : SearchState),
        (s.bestScore < (annealStep radii r s).currentScore →
          (annealStep radii r s).bestPositions =
              (annealStep radii r s).positions ∧
            (annealStep radii r s).bestScore =
              (annealStep radii r s).currentScore) ∧
        (¬ s.bestScore < (annealStep radii r s).currentScore →
          (annealStep radii r s).bestPositions = s.bestPositions ∧
            (annealStep radii r s).bestScore = s.bestScore)) ∧
      calculate_total_distance
          ((stateAt radii iterR (initState radii num_lights.toNat initR)
            M).bestPositions) ≥
        (initState radii num_lights.toNat initR).currentScore ∧
      (∀ k, k ≤ M →
        calculate_total_distance
            ((stateAt radii iterR (initState radii num_lights.toNat initR)
              M).bestPositions) ≥
          (stateAt radii iterR (initState radii num_lights.toNat initR)
            k).currentScore) := by
  have hinv := stateAt_score_inv radii iterR
    (initState radii num_lights.toNat initR) rfl rfl (le_refl _)
  refine ⟨?_, ⟨rfl, rfl⟩, fun r s => annealStep_best_update radii r s, ?_, ?_⟩
  · rw [optimize_light_positions, if_neg (by omega), hres]
  · rw [← (hinv M).2.1]
    exact stateAt_bestScore_mono radii iterR
      (initState radii num_lights.toNat initR) 0 M (Nat.zero_le M)
  · intro k hk
    rw [← (hinv M).2.1]
    exact le_trans (hinv k).2.2
      (stateAt_bestScore_mono radii iterR
        (initState radii num_lights.toNat initR) k M hk)

/-- Witness for C4 at `count = 1`, `distances = None`, zero iterations. -/
theorem C4_returns_best_observed_witness :
    (0 : ℤ) < 1 ∧
      resolveDistances (1 : ℤ).toNat none = .ok (List.replicate 1 1.0) ∧
      (0 : ℕ) ≤ 0 ∧
      calculate_total_distance
          ((stateAt (List.replicate 1 1.0) (fun _ => ⟨0, 0, 0, 0⟩)
            (initState (List.replicate 1 1.0) (1 : ℤ).toNat fun _ => (0, 0))
            0).bestPositions) ≥
        (stateAt (List.replicate 1 1.0) (fun _ => ⟨0, 0, 0, 0⟩)
          (initState (List.replicate 1 1.0) (1 : ℤ).toNat fun _ => (0, 0))
          0).currentScore :=
  ⟨by decide, rfl, by decide,
   (C4_returns_best_observed 1 none 0 (fun _ => (0, 0)) (fun _ => ⟨0, 0, 0, 0⟩)
     (List.replicate 1 1.0) (by decide) rfl).2.2.2.2 0 (by decide)⟩

/-- C1: with a positive light count and positive radii, every position the
search ever holds — each initial position, each candidate, each entry of every
intermediate and best configuration, and each entry of the returned sequence —
has norm exactly equal to its light's radius (exact in the real-number model,
up to floating point in the source). -/
theorem C1_on_sphere_invariant (num_lights : ℤ)
    (distances : Option (ℝ ⊕ List ℝ)) (M : ℕ) (initR : ℕ → ℝ × ℝ)
    (iterR : ℕ → IterRand) (radii : List ℝ) (h0 : 0 < num_lights)
    (hres : resolveDistances num_lights.toNat distances = .ok radii)
    (hpos : ∀ i, i < num_lights.toNat → 0 < radii.getD i 0)
    (hidx : ∀ k, (iterR k).lightIdx < num_lights.toNat) :
    (∀ i, i < num_lights.toNat →
        norm3 ((initState radii num_lights.toNat initR).positions.getD i
          default) = radii.getD i 0) ∧
      (∀ k, norm3 (sphPoint (radii.getD (iterR k).lightIdx 0) (iterR k).phi
          (iterR k).theta) = radii.getD (iterR k).lightIdx 0) ∧
      (∀ k i, i < num_lights.toNat →
        norm3 ((stateAt radii iterR (initState radii num_lights.toNat initR)
            k).positions.getD i default) = radii.getD i 0 ∧
          norm3 ((stateAt radii iterR (initState radii num_lights.toNat initR)
            k).bestPositions.getD i default) = radii.getD i 0) ∧
      (∀ res, optimize_light_positions num_lights distances M initR iterR =
          .ok res →
        ∀ i, i < num_lights.toNat → norm3 (res.getD i default) =
          radii.getD i 0) := by
  have hpos' : ∀ i, i < num_lights.toNat → 0 ≤ radii.getD i 0 :=
    fun i hi => (hpos i hi).le
  have hinit : OnSphereList radii num_lights.toNat
      (initPositions radii num_lights.toNat initR) :=
    initPositions_onSphere radii num_lights.toNat initR hpos'
  have hstate := fun k => stateAt_onSphere radii num_lights.toNat iterR
    (initState radii num_lights.toNat initR) hidx hpos' hinit hinit k
  refine ⟨fun i hi => hinit.2 i hi, ?_, ?_, ?_⟩
  · intro k
    rw [norm3_sphPoint]
    exact abs_of_nonneg (hpos' _ (hidx k))
  · intro k i hi
    exact ⟨(hstate k).1.2 i hi, (hstate k).2.2 i hi⟩
  · intro res hok i hi
    have hrun : optimize_light_positions num_lights distances M initR iterR =
        .ok ((stateAt radii iterR (initState radii num_lights.toNat initR)
          M).bestPositions) := by
      rw [optimize_light_positions, if_neg (by omega), hres]
    rw [hrun] at hok
    rw [← Except.ok.inj hok]
    exact (hstate M).2.2 i hi

/-- Witness for C1 at one light of radius `1.0`. -/
theorem C1_on_sphere_invariant_witness :
    (0 : ℤ) < 1 ∧
      resolveDistances (1 : ℤ).toNat (some (.inl 1.0)) =
        .ok (List.replicate 1 1.0) ∧
      (∀ i, i < (1 : ℤ).toNat →
        0 < (List.replicate 1 (1.0 : ℝ)).getD i 0) ∧
      (∀ k : ℕ, ((fun _ : ℕ => (⟨0, 0, 0, 0⟩ : IterRand)) k).lightIdx <
        (1 : ℤ).toNat) ∧
      (∀ k, norm3 (sphPoint ((List.replicate 1 (1.0 : ℝ)).getD
            ((fun _ : ℕ => (⟨0, 0, 0, 0⟩ : IterRand)) k).lightIdx 0)
          ((fun _ : ℕ => (⟨0, 0, 0, 0⟩ : IterRand)) k).phi
          ((fun _ : ℕ => (⟨0, 0, 0, 0⟩ : IterRand)) k).theta) =
        (List.replicate 1 (1.0 : ℝ)).getD
          ((fun _ : ℕ => (⟨0, 0, 0, 0⟩ : IterRand)) k).lightIdx 0) := by
  have hpos : ∀ i, i < (1 : ℤ).toNat →
      0 < (List.replicate 1 (1.0 : ℝ)).getD i 0 := by
    intro i hi
    have hi0 : i = 0 := by omega
    subst hi0
    norm_num [List.getD]
  have hidx : ∀ k : ℕ, ((fun _ : ℕ => (⟨0, 0, 0, 0⟩ : IterRand)) k).lightIdx <
      (1 : ℤ).toNat := by
    intro k
    show (0 : ℕ) < 1
    decide
  exact ⟨by decide, rfl, hpos, hidx,
    (C1_on_sphere_invariant 1 (some (.inl 1.0)) 0 (fun _ => (0, 0))
      (fun _ => ⟨0, 0, 0, 0⟩) (List.replicate 1 1.0) (by decide) rfl hpos
      hidx).2.1⟩

/-- C7: for every iteration budget `M` the loop runs exactly `M` iterations
with no early termination, and the temperature starts at `1.0` and is
multiplied by the cooling rate `0.995` exactly once per iteration, so after
`k` iterations it equals `0.995 ^ k` and stays strictly positive. -/
theorem C7_full_budget_cooling (num_lights : ℤ)
    (distances : Option (ℝ ⊕ List ℝ)) (M : ℕ) (initR : ℕ → ℝ × ℝ)
    (iterR : ℕ → IterRand) (radii : List ℝ) (h0 : 0 < num_lights)
    (hres : resolveDistances num_lights.toNat distances = .ok radii) :
    optimize_light_positions num_lights distances M initR iterR =
        .ok ((stateAt radii iterR (initState radii num_lights.toNat initR)
          M).bestPositions) ∧
      cooling_rate = 0.995 ∧
      (∀ k, (stateAt radii iterR (initState radii num_lights.toNat initR)
        k).temperature = cooling_rate ^ k) ∧
      (∀ k, 0 < (stateAt radii iterR (initState radii num_lights.toNat initR)
        k).temperature) := by
  have htemp : ∀ k,
      (stateAt radii iterR (initState radii num_lights.toNat initR)
        k).temperature = cooling_rate ^ k := by
    intro k
    rw [stateAt_temperature]
    have ht : (initState radii num_lights.toNat initR).temperature = 1.0 := rfl
    rw [ht, show (1.0 : ℝ) = 1 from by norm_num, one_mul]
  refine ⟨?_, rfl, htemp, ?_⟩
  · rw [optimize_light_positions, if_neg (by omega), hres]
  · intro k
    rw [htemp k]
    exact pow_pos (by norm_num [cooling_rate]) k

/-- Witness for C7 at `count = 1`, `distances = None`: the temperature after
two iterations is `0.995 ^ 2`. -/
theorem C7_full_budget_cooling_witness :
    (0 : ℤ) < 1 ∧
      resolveDistances (1 : ℤ).toNat none = .ok (List.replicate 1 1.0) ∧
      (stateAt (List.replicate 1 1.0) (fun _ => ⟨0, 0, 0, 0⟩)
        (initState (List.replicate 1 1.0) (1 : ℤ).toNat fun _ => (0, 0))
        2).temperature = cooling_rate ^ 2 :=
  ⟨by decide, rfl,
   (C7_full_budget_cooling 1 none 5 (fun _ => (0, 0)) (fun _ => ⟨0, 0, 0, 0⟩)
     (List.replicate 1 1.0) (by decide) rfl).2.2.1 2⟩

/-- C10: `optimize_light_positions` never mutates the caller's `distances`
list: in the heap-threaded embedding, where every access to the caller-owned
list goes through an explicit heap, the heap after any call is the heap before
it (so the caller's list holds exactly its original elements in order), and
the heap-threaded run returns the same result as the pure embedding. -/
theorem C10_no_caller_mutation (heap : Heap) (num_lights : ℤ)
    (distances : Option (ℝ ⊕ ℕ)) (M : ℕ) (initR : ℕ → ℝ × ℝ)
    (iterR : ℕ → IterRand) :
    (optimize_light_positions_heap heap num_lights distances M initR
        iterR).1 = heap ∧
      (optimize_light_positions_heap heap num_lights distances M initR
          iterR).2 =
        optimize_light_positions num_lights (pureDistances heap distances) M
          initR iterR := by
  have key : optimize_light_positions_heap heap num_lights distances M initR
      iterR =
      (heap, optimize_light_positions num_lights (pureDistances heap distances)
        M initR iterR) := by
    simp only [optimize_light_positions_heap, optimize_light_positions]
    by_cases h0 : num_lights ≤ 0
    · rw [if_pos h0, if_pos h0]
    · rw [if_neg h0, if_neg h0]
      have hfst := resolveDistancesH_fst heap num_lights.toNat distances
      have hsnd := resolveDistancesH_snd heap num_lights.toNat distances
      rcases hr : (resolveDistancesH heap num_lights.toNat distances).2 with
        e | rd
      · rw [hr] at hsnd
        have hpure : resolveDistances num_lights.toNat
            (pureDistances heap distances) = .error e := by
          rw [← hsnd]; rfl
        rw [hpure, hfst]
      · rw [hr] at hsnd
        have hpure : resolveDistances num_lights.toNat
            (pureDistances heap distances) = .ok (derefRadii heap rd) := by
          rw [← hsnd]; rfl
        rw [hpure, hfst]
        show ((stateAtH heap rd iterR
            (⟨initPositionsH heap rd num_lights.toNat initR,
              calculate_total_distance
                (initPositionsH heap rd num_lights.toNat initR),
              initPositionsH heap rd num_lights.toNat initR,
              calculate_total_distance
                (initPositionsH heap rd num_lights.toNat initR),
              1.0⟩ : SearchState) M).1,
          Except.ok ((stateAtH heap rd iterR
            (⟨initPositionsH heap rd num_lights.toNat initR,
              calculate_total_distance
                (initPositionsH heap rd num_lights.toNat initR),
              initPositionsH heap rd num_lights.toNat initR,
              calculate_total_distance
                (initPositionsH heap rd num_lights.toNat initR),
              1.0⟩ : SearchState) M).2.bestPositions)) =
          (heap, Except.ok ((stateAt (derefRadii heap rd) iterR
            (initState (derefRadii heap rd) num_lights.toNat initR)
            M).bestPositions))
        rw [initPositionsH_eq, stateAtH_eq]
        rfl
  exact ⟨by rw [key], by rw [key]⟩
